import Mathlib

/-!
Shallow embedding of `crates/proof-of-sql/utils/commit-utility/main.rs`,
the commitment-inspection command-line tool of the sxt-proof-of-sql
repository, together with theorems settling the specification claims.

Modelling conventions:
* Bytes are `List Nat` (each entry a `u8` value).
* The operating-system world is an explicit `Env` record: what each input
  file holds (or how opening/reading it fails), what stdin holds, whether
  creating/writing each output file succeeds, and the pre-existing file
  system.  Every failure outcome carries an opaque `cause` string modelling
  the underlying `std::io::Error` / decoder error, which the program
  discards via `map_err` with a wildcard closure argument.
* The external decoding and rendering machinery (`postcard::from_bytes`
  instantiated at `TableCommitment` of the three commitment types, and the
  derived `Debug` pretty-printing used by the `format!` call) is not part
  of the source file; it is modelled as an abstract `Codec` record of pure
  functions, per the specification, which treats the wire format as a
  fixed opaque external contract.
* Rust `str::to_lowercase` is modelled by per-character ASCII lowering
  (`Char.toLower`); the two agree on all ASCII strings, and every alias in
  the scheme table is ASCII.
-/

/-- A byte sequence (`Vec<u8>` in the source); each entry models a `u8`. -/
abbrev Bytes := List Nat

/-- The error enumeration of the tool, mirroring `enum CommitUtilityError`
in the source, one constructor per variant with the same carried data. -/
inductive CommitUtilityError where
  | OpenInputFile (filename : String)
  | ReadInputFile (filename : String)
  | ReadStdin
  | CreateOutputFile (filename : String)
  | WriteOutputFile (filename : String)
  | WriteStdout
  | DeserializationError
  | UnknownScheme (scheme : String)
deriving DecidableEq, Repr

/-- The operator-facing message of each error variant, mirroring the
`snafu(display(...))` attribute strings of the source. -/
def CommitUtilityError.display : CommitUtilityError → String
  | .OpenInputFile filename =>
      "Failed to open input file \x27" ++ filename ++ "\x27"
  | .ReadInputFile filename =>
      "Failed to read from input file \x27" ++ filename ++ "\x27"
  | .ReadStdin => "Failed to read from stdin"
  | .CreateOutputFile filename =>
      "Failed to create output file \x27" ++ filename ++ "\x27"
  | .WriteOutputFile filename =>
      "Failed to write to output file \x27" ++ filename ++ "\x27"
  | .WriteStdout => "Failed to write to stdout"
  | .DeserializationError => "Failed to deserialize commitment"
  | .UnknownScheme scheme => "Unknown scheme: \x27" ++ scheme ++ "\x27"

/-- The parsed command line, mirroring `struct Cli` in the source. -/
structure Cli where
  input : Option String
  output : Option String
  scheme : String

/-- The closed scheme enumeration of the specification data model. -/
inductive Scheme where
  | InnerProductArgument
  | Dory
  | DynamicDory
deriving DecidableEq, Repr

/-- Model of Rust `str::to_lowercase`, restricted to its ASCII action
(per-character lowering); all alias strings in the scheme table are ASCII,
where the two functions coincide. -/
def to_lowercase (s : String) : String :=
  ⟨s.data.map Char.toLower⟩

/-- Outcome of `File::open` followed by `read_to_end` on a named input
file, as provided by the environment.  Failure outcomes carry the opaque
underlying `std::io::Error` as a `cause` string, which the program
discards. -/
inductive FileReadOutcome where
  | openFailure (cause : String)
  | readFailure (cause : String)
  | contents (bytes : Bytes)

/-- The operating-system environment of one invocation: input files,
stdin, output-file creation/write outcomes, stdout outcome, and the
pre-existing file system.  A `writeOutcome`/`stdoutOutcome` of
`some (n, cause)` means the write fails after `n` characters reach the
destination; `none` means the full write succeeds. -/
structure Env where
  file : String → FileReadOutcome
  stdinData : Except String Bytes
  createOutcome : String → Option String
  writeOutcome : String → Option (Nat × String)
  stdoutOutcome : Option (Nat × String)
  preFs : String → Option String

/-- Modelled from the spec: the external commitment codec — the
`postcard::from_bytes` deserializers at `TableCommitment` of
`DynamicDoryCommitment`, `DoryCommitment` and `RistrettoPoint`, and the
derived `Debug` pretty-printers used by `format!` — which live outside
this source file and are treated by the specification as a fixed opaque
external contract.  Each deserializer is a pure function returning either
the typed commitment value or an opaque error cause; each renderer is a
pure function from value to text. -/
structure Codec where
  DynamicDoryValue : Type
  DoryValue : Type
  RistrettoValue : Type
  fromBytesDynamicDory : Bytes → Except String DynamicDoryValue
  fromBytesDory : Bytes → Except String DoryValue
  fromBytesIpa : Bytes → Except String RistrettoValue
  formatDynamicDory : DynamicDoryValue → String
  formatDory : DoryValue → String
  formatIpa : RistrettoValue → String

/-- Input acquisition, mirroring the first `match` of `main`: with a path,
open (failing with `OpenInputFile`) then read fully (failing with
`ReadInputFile`); without a path, read stdin fully (failing with
`ReadStdin`). -/
def readInputData (env : Env) (input : Option String) :
    Except CommitUtilityError Bytes :=
  match input with
  | some input_file =>
      match env.file input_file with
      | .openFailure _ => .error (.OpenInputFile input_file)
      | .readFailure _ => .error (.ReadInputFile input_file)
      | .contents buffer => .ok buffer
  | none =>
      match env.stdinData with
      | .error _ => .error .ReadStdin
      | .ok buffer => .ok buffer

/-- The scheme-dispatch decode-and-render step, mirroring the second
`match` of `main`: lowercase the scheme string, test it against the alias
arms in source order, decode with the selected deserializer (mapping any
decoder error to `DeserializationError`), and render the decoded value;
an unmatched string yields `UnknownScheme` carrying the original
(non-lowercased) scheme string.  Rust `match` on string literals is a
sequence of equality tests, embedded here as an if-else chain. -/
def humanReadable (codec : Codec) (scheme : String) (input_data : Bytes) :
    Except CommitUtilityError String :=
  let lowered := to_lowercase scheme
  if lowered = "dynamic_dory" ∨ lowered = "dynamic-dory" then
    match codec.fromBytesDynamicDory input_data with
    | .error _ => .error .DeserializationError
    | .ok commitment => .ok (codec.formatDynamicDory commitment)
  else if lowered = "dory" then
    match codec.fromBytesDory input_data with
    | .error _ => .error .DeserializationError
    | .ok commitment => .ok (codec.formatDory commitment)
  else if lowered = "ipa" ∨ lowered = "innerproductargument" then
    match codec.fromBytesIpa input_data with
    | .error _ => .error .DeserializationError
    | .ok commitment => .ok (codec.formatIpa commitment)
  else
    .error (.UnknownScheme scheme)

/-- The scheme resolver of the specification: the same lowercase-and-match
alias table as `humanReadable`, returning the resolved `Scheme` instead of
dispatching a decoder. -/
def resolveScheme (s : String) : Except CommitUtilityError Scheme :=
  let lowered := to_lowercase s
  if lowered = "dynamic_dory" ∨ lowered = "dynamic-dory" then
    .ok .DynamicDory
  else if lowered = "dory" then
    .ok .Dory
  else if lowered = "ipa" ∨ lowered = "innerproductargument" then
    .ok .InnerProductArgument
  else
    .error (.UnknownScheme s)

/-- Decode-and-render for an already-resolved scheme: the body of the
matching arm of the second `match` of `main`. -/
def decodeWith (codec : Codec) (sch : Scheme) (input_data : Bytes) :
    Except CommitUtilityError String :=
  match sch with
  | .DynamicDory =>
      match codec.fromBytesDynamicDory input_data with
      | .error _ => .error .DeserializationError
      | .ok commitment => .ok (codec.formatDynamicDory commitment)
  | .Dory =>
      match codec.fromBytesDory input_data with
      | .error _ => .error .DeserializationError
      | .ok commitment => .ok (codec.formatDory commitment)
  | .InnerProductArgument =>
      match codec.fromBytesIpa input_data with
      | .error _ => .error .DeserializationError
      | .ok commitment => .ok (codec.formatIpa commitment)

/-- Output emission, mirroring the third `match` of `main`.  Returns the
result together with the resulting file system and the text that reached
stdout.  With a path: `File::create` either fails (`CreateOutputFile`,
file system untouched) or truncates/creates the file, after which
`write_all` either writes the full text or fails (`WriteOutputFile`)
leaving the partially written file on disk.  Without a path: write to
stdout, failing with `WriteStdout` after a possibly partial write. -/
def writeOutputData (env : Env) (output : Option String)
    (human_readable : String) :
    Except CommitUtilityError Unit × (String → Option String) × String :=
  match output with
  | some output_file =>
      match env.createOutcome output_file with
      | some _ => (.error (.CreateOutputFile output_file), env.preFs, "")
      | none =>
          match env.writeOutcome output_file with
          | some (n, _) =>
              (.error (.WriteOutputFile output_file),
               fun p => if p = output_file
                 then some (human_readable.take n) else env.preFs p,
               "")
          | none =>
              (.ok (),
               fun p => if p = output_file
                 then some human_readable else env.preFs p,
               "")
  | none =>
      match env.stdoutOutcome with
      | some (n, _) => (.error .WriteStdout, env.preFs, human_readable.take n)
      | none => (.ok (), env.preFs, human_readable)

/-- The whole run of `fn main` (after command-line parsing): input
acquisition, then scheme dispatch with decode and render, then output
emission, each stage aborting the run on error via the `?` operator.
Returns the process result, the final file system, and the text that
reached stdout. -/
def mainRun (env : Env) (codec : Codec) (cli : Cli) :
    Except CommitUtilityError Unit × (String → Option String) × String :=
  match readInputData env cli.input with
  | .error e => (.error e, env.preFs, "")
  | .ok input_data =>
      match humanReadable codec cli.scheme input_data with
      | .error e => (.error e, env.preFs, "")
      | .ok text => writeOutputData env cli.output text

/-- The process exit status determined by the result of `fn main`, per the
`Termination` impl of `Result`: `0` on `Ok`, `1` (`EXIT_FAILURE`) on
`Err`. -/
def reportExit (r : Except CommitUtilityError Unit) : Nat :=
  match r with
  | .ok _ => 0
  | .error _ => 1

/-- The single terminal message of a failed run: determined by the error
value alone. -/
def errorMessage (r : Except CommitUtilityError Unit) : Option String :=
  match r with
  | .ok _ => none
  | .error e => some e.display

/-- True of the errors that can only arise before output emission:
input-acquisition errors, `UnknownScheme` and `DeserializationError`. -/
def CommitUtilityError.isPreOutput : CommitUtilityError → Bool
  | .OpenInputFile _ => true
  | .ReadInputFile _ => true
  | .ReadStdin => true
  | .UnknownScheme _ => true
  | .DeserializationError => true
  | _ => false

/-- Whether the scheme string matches some arm of the alias table. -/
def resolvesOk (s : String) : Prop :=
  to_lowercase s = "dynamic_dory" ∨ to_lowercase s = "dynamic-dory" ∨
    to_lowercase s = "dory" ∨ to_lowercase s = "ipa" ∨
    to_lowercase s = "innerproductargument"

instance (s : String) : Decidable (resolvesOk s) := by
  unfold resolvesOk
  infer_instance

/-- Whether the deserializer selected by the resolved scheme parses the
bytes into a typed commitment value. -/
def decodeSucceeds (codec : Codec) (sch : Scheme) (b : Bytes) : Prop :=
  match sch with
  | .DynamicDory => ∃ v, codec.fromBytesDynamicDory b = .ok v
  | .Dory => ∃ v, codec.fromBytesDory b = .ok v
  | .InnerProductArgument => ∃ v, codec.fromBytesIpa b = .ok v

/-- Rewrite the opaque cause inside an external-decoder result. -/
def exceptMapCause {α : Type _} (f : String → String) :
    Except String α → Except String α
  | .error cause => .error (f cause)
  | .ok v => .ok v

/-- Rewrite the opaque cause of a file-read outcome. -/
def FileReadOutcome.mapCause (f : String → String) :
    FileReadOutcome → FileReadOutcome
  | .openFailure cause => .openFailure (f cause)
  | .readFailure cause => .readFailure (f cause)
  | .contents bytes => .contents bytes

/-- Rewrite every opaque underlying-failure cause of the environment,
keeping the success/failure pattern, all data, and all partial-write
progress unchanged. -/
def Env.mapCauses (f : String → String) (env : Env) : Env where
  file := fun p => (env.file p).mapCause f
  stdinData := exceptMapCause f env.stdinData
  createOutcome := fun p => (env.createOutcome p).map f
  writeOutcome := fun p => (env.writeOutcome p).map (fun q => (q.1, f q.2))
  stdoutOutcome := env.stdoutOutcome.map (fun q => (q.1, f q.2))
  preFs := env.preFs

/-- Rewrite every opaque decoder-error cause of the codec. -/
def Codec.mapCauses (f : String → String) (codec : Codec) : Codec where
  DynamicDoryValue := codec.DynamicDoryValue
  DoryValue := codec.DoryValue
  RistrettoValue := codec.RistrettoValue
  fromBytesDynamicDory := fun b => exceptMapCause f (codec.fromBytesDynamicDory b)
  fromBytesDory := fun b => exceptMapCause f (codec.fromBytesDory b)
  fromBytesIpa := fun b => exceptMapCause f (codec.fromBytesIpa b)
  formatDynamicDory := codec.formatDynamicDory
  formatDory := codec.formatDory
  formatIpa := codec.formatIpa

/-- The rendered text produced by a run, when every stage up to rendering
succeeds. -/
def runRendered (env : Env) (codec : Codec) (cli : Cli) : Option String :=
  match readInputData env cli.input with
  | .error _ => none
  | .ok input_data =>
      match humanReadable codec cli.scheme input_data with
      | .error _ => none
      | .ok text => some text

/-- A concrete codec instance for evaluating the embedding on concrete
inputs: decoding succeeds exactly on the one-byte sequence `[0]`. -/
def sampleCodec : Codec where
  DynamicDoryValue := Unit
  DoryValue := Unit
  RistrettoValue := Unit
  fromBytesDynamicDory := fun b =>
    if b = [0] then .ok () else .error "bad dynamic dory bytes"
  fromBytesDory := fun b =>
    if b = [0] then .ok () else .error "bad dory bytes"
  fromBytesIpa := fun b =>
    if b = [0] then .ok () else .error "bad ipa bytes"
  formatDynamicDory := fun _ => "TableCommitment (dynamic dory)"
  formatDory := fun _ => "TableCommitment (dory)"
  formatIpa := fun _ => "TableCommitment (ipa)"

/-- A concrete benign environment: every file holds `[0]`, stdin holds
`[0]`, all writes succeed, the prior file system is empty. -/
def sampleEnv : Env where
  file := fun _ => .contents [0]
  stdinData := .ok [0]
  createOutcome := fun _ => none
  writeOutcome := fun _ => none
  stdoutOutcome := none
  preFs := fun _ => none

/-- A concrete hostile environment: opening any file fails, stdin fails,
creating any output file fails, stdout fails at once; one pre-existing
file `out.txt` holds `old`. -/
def brokenEnv : Env where
  file := fun _ => .openFailure "permission denied"
  stdinData := .error "broken pipe"
  createOutcome := fun _ => some "read-only file system"
  writeOutcome := fun _ => some (0, "disk full")
  stdoutOutcome := some (0, "closed")
  preFs := fun p => if p = "out.txt" then some "old" else none

/-- The same failure pattern as `brokenEnv` with every underlying cause
replaced by a different one; only the opaque causes differ. -/
def brokenEnvAlt : Env where
  file := fun _ => .openFailure "no such file or directory"
  stdinData := .error "connection reset"
  createOutcome := fun _ => some "permission denied"
  writeOutcome := fun _ => some (0, "quota exceeded")
  stdoutOutcome := some (0, "pipe closed")
  preFs := fun p => if p = "out.txt" then some "old" else none

/-- A concrete environment whose input file holds `[1]`, bytes that
`sampleCodec` rejects. -/
def badBytesEnv : Env where
  file := fun _ => .contents [1]
  stdinData := .ok [1]
  createOutcome := fun _ => none
  writeOutcome := fun _ => none
  stdoutOutcome := none
  preFs := fun _ => none

/-- A concrete environment where every input file opens but reading it
fails partway. -/
def readFailEnv : Env where
  file := fun _ => .readFailure "interrupted"
  stdinData := .ok [0]
  createOutcome := fun _ => none
  writeOutcome := fun _ => none
  stdoutOutcome := none
  preFs := fun _ => none

/-- A concrete environment with undecodable input bytes `[1]` and a
pre-existing output file `out.txt` holding `old`. -/
def preserveEnv : Env where
  file := fun _ => .contents [1]
  stdinData := .ok [1]
  createOutcome := fun _ => none
  writeOutcome := fun _ => none
  stdoutOutcome := none
  preFs := fun p => if p = "out.txt" then some "old" else none

/-- A concrete environment where output-file creation succeeds but the
subsequent write fails after one character. -/
def writeFailEnv : Env where
  file := fun _ => .contents [0]
  stdinData := .ok [0]
  createOutcome := fun _ => none
  writeOutcome := fun _ => some (1, "disk full")
  stdoutOutcome := none
  preFs := fun _ => none

/-!  Helper lemmas shared by the claim theorems. -/

/-- The inline scheme `match` of `main` factors through the resolver of
the specification followed by the per-scheme decode-and-render step. -/
theorem humanReadable_factor (codec : Codec) (s : String) (b : Bytes) :
    humanReadable codec s b =
      match resolveScheme s with
      | .error e => .error e
      | .ok sch => decodeWith codec sch b := by
  unfold humanReadable resolveScheme decodeWith
  dsimp only
  split_ifs <;> rfl

/-- Two scheme strings with the same lowercasing, one of which matches the
alias table, select the same decode-and-render behaviour. -/
theorem humanReadable_congr (codec : Codec) {s t : String} (b : Bytes)
    (hlow : to_lowercase s = to_lowercase t) (hres : resolvesOk s) :
    humanReadable codec s b = humanReadable codec t b := by
  unfold humanReadable
  dsimp only
  rw [hlow]
  split_ifs with h1 h2 h3
  · rfl
  · rfl
  · rfl
  · exfalso
    unfold resolvesOk at hres
    rw [hlow] at hres
    tauto

/-- Input acquisition ignores the opaque causes of the environment. -/
theorem readInputData_mapCauses (f : String → String) (env : Env)
    (i : Option String) :
    readInputData (env.mapCauses f) i = readInputData env i := by
  cases i with
  | none =>
      cases h : env.stdinData <;>
        simp [readInputData, Env.mapCauses, exceptMapCause, h]
  | some p =>
      cases h : env.file p <;>
        simp [readInputData, Env.mapCauses, FileReadOutcome.mapCause, h]

/-- Decode-and-render ignores the opaque causes of decoder errors. -/
theorem humanReadable_mapCauses (f : String → String) (codec : Codec)
    (s : String) (b : Bytes) :
    humanReadable (codec.mapCauses f) s b = humanReadable codec s b := by
  unfold humanReadable Codec.mapCauses
  dsimp only
  split_ifs with h1 h2 h3
  · cases h : codec.fromBytesDynamicDory b <;> simp [exceptMapCause, h]
  · cases h : codec.fromBytesDory b <;> simp [exceptMapCause, h]
  · cases h : codec.fromBytesIpa b <;> simp [exceptMapCause, h]
  · rfl

/-- Output emission ignores the opaque causes of the environment. -/
theorem writeOutputData_mapCauses (f : String → String) (env : Env)
    (o : Option String) (t : String) :
    writeOutputData (env.mapCauses f) o t = writeOutputData env o t := by
  cases o with
  | none =>
      cases h : env.stdoutOutcome <;>
        simp [writeOutputData, Env.mapCauses, h]
  | some p =>
      cases hc : env.createOutcome p with
      | some c => simp [writeOutputData, Env.mapCauses, hc]
      | none =>
          cases hw : env.writeOutcome p <;>
            simp [writeOutputData, Env.mapCauses, hc, hw]

/-- The whole run ignores every opaque underlying-failure cause. -/
theorem mainRun_mapCauses (f : String → String) (env : Env) (codec : Codec)
    (cli : Cli) :
    mainRun (env.mapCauses f) (codec.mapCauses f) cli = mainRun env codec cli := by
  unfold mainRun
  rw [readInputData_mapCauses]
  cases readInputData env cli.input with
  | error e => rfl
  | ok b =>
      dsimp only
      rw [humanReadable_mapCauses]
      cases humanReadable codec cli.scheme b with
      | error e => rfl
      | ok t => exact writeOutputData_mapCauses f env cli.output t

/-- The per-scheme decode-and-render step either succeeds or yields
exactly `DeserializationError`, and succeeds exactly when the selected
deserializer parses the bytes. -/
theorem decodeWith_total (codec : Codec) (sch : Scheme) (b : Bytes) :
    ((∃ t, decodeWith codec sch b = .ok t) ∨
      decodeWith codec sch b = .error .DeserializationError) ∧
    ((∃ t, decodeWith codec sch b = .ok t) ↔ decodeSucceeds codec sch b) := by
  cases sch with
  | DynamicDory =>
      cases h : codec.fromBytesDynamicDory b <;>
        simp [decodeWith, decodeSucceeds, h]
  | Dory =>
      cases h : codec.fromBytesDory b <;>
        simp [decodeWith, decodeSucceeds, h]
  | InnerProductArgument =>
      cases h : codec.fromBytesIpa b <;>
        simp [decodeWith, decodeSucceeds, h]
/-- C1: for every scheme name string `s`, the Scheme Resolver lowercases
`s` and resolves it exactly per the fixed alias table — `dynamic_dory` and
`dynamic-dory` to DynamicDory, `dory` to Dory, `ipa` and
`innerproductargument` to InnerProductArgument — and any other value fails
with `UnknownScheme`; no other alias or partial match is accepted, and the
inline dispatch of `main` factors through exactly this table. -/
theorem scheme_resolver_matches_alias_table (s : String) :
    (∀ codec b, humanReadable codec s b =
        match resolveScheme s with
        | .error e => .error e
        | .ok sch => decodeWith codec sch b) ∧
    (resolveScheme s = .ok .DynamicDory ↔
      to_lowercase s = "dynamic_dory" ∨ to_lowercase s = "dynamic-dory") ∧
    (resolveScheme s = .ok .Dory ↔ to_lowercase s = "dory") ∧
    (resolveScheme s = .ok .InnerProductArgument ↔
      to_lowercase s = "ipa" ∨ to_lowercase s = "innerproductargument") ∧
    (resolveScheme s = .error (.UnknownScheme s) ↔ ¬ resolvesOk s) := by
  refine ⟨fun codec b => humanReadable_factor codec s b, ?_, ?_, ?_, ?_⟩
  · unfold resolveScheme
    dsimp only
    split_ifs with h1 h2 h3
    · simp [h1]
    · simp [h1]
    · simp [h1]
    · simp [h1]
  · unfold resolveScheme
    dsimp only
    split_ifs with h1 h2 h3
    · rcases h1 with h | h <;> rw [h] <;> simp
    · simp [h2]
    · simp [h2]
    · simp [h2]
  · unfold resolveScheme
    dsimp only
    split_ifs with h1 h2 h3
    · rcases h1 with h | h <;> rw [h] <;> simp
    · rw [h2]; simp
    · simp [h3]
    · simp [h3]
  · unfold resolveScheme
    dsimp only
    split_ifs with h1 h2 h3 <;> simp [resolvesOk] <;> tauto

/-- C2: for every byte sequence and every resolved scheme, decoding is
total — it either fully parses the bytes into the expected typed
commitment value (exactly when the selected external deserializer
succeeds) and succeeds, or fails with `DeserializationError`; on failure
the run writes nothing, so no partial textual output is produced. -/
theorem decode_total_or_deserialization_error (codec : Codec) (s : String)
    (b : Bytes) (sch : Scheme) (hres : resolveScheme s = .ok sch) :
    ((∃ t, humanReadable codec s b = .ok t) ∨
      humanReadable codec s b = .error .DeserializationError) ∧
    ((∃ t, humanReadable codec s b = .ok t) ↔ decodeSucceeds codec sch b) ∧
    (∀ env cli, cli.scheme = s → readInputData env cli.input = .ok b →
      humanReadable codec s b = .error .DeserializationError →
      mainRun env codec cli = (.error .DeserializationError, env.preFs, "")) := by
  have hfac := humanReadable_factor codec s b
  rw [hres] at hfac
  dsimp only at hfac
  refine ⟨?_, ?_, ?_⟩
  · rw [hfac]
    exact (decodeWith_total codec sch b).1
  · rw [hfac]
    exact (decodeWith_total codec sch b).2
  · intro env cli hs hb hfail
    simp [mainRun, hb, hs, hfail]

/-- C3: for every scheme name string that does not match the alias table,
the resulting `UnknownScheme` error carries exactly the original,
non-lowercased input string. -/
theorem unknown_scheme_carries_original_string (codec : Codec) (s : String)
    (b : Bytes) (h : ¬ resolvesOk s) :
    humanReadable codec s b = .error (.UnknownScheme s) := by
  unfold humanReadable
  dsimp only
  split_ifs with h1 h2 h3
  · exact absurd (by unfold resolvesOk; tauto) h
  · exact absurd (by unfold resolvesOk; tauto) h
  · exact absurd (by unfold resolvesOk; tauto) h
  · rfl

/-- C4: for every fixed pair of byte sequence and scheme name for which
decoding succeeds, any two runs of the decode-and-render pipeline produce
the same rendered text: the rendering is a deterministic function of the
bytes and the scheme only. -/
theorem decode_render_deterministic (env1 env2 : Env) (codec : Codec)
    (cli1 cli2 : Cli) (b : Bytes)
    (h1 : readInputData env1 cli1.input = .ok b)
    (h2 : readInputData env2 cli2.input = .ok b)
    (hs : cli1.scheme = cli2.scheme) :
    runRendered env1 codec cli1 = runRendered env2 codec cli2 ∧
    runRendered env1 codec cli1 =
      (match humanReadable codec cli1.scheme b with
       | .error _ => none
       | .ok t => some t) := by
  unfold runRendered
  rw [h1, h2, hs]
  exact ⟨rfl, rfl⟩

/-- C5: for every destination path and rendered text, Output Emission
either leaves the destination containing exactly the full rendered text,
or raises `CreateOutputFile` or `WriteOutputFile`; and — the known
limitation — if creation succeeds and the write then fails, the created
(possibly empty or partial) file is left on disk. -/
theorem output_emission_contract (env : Env) (p t : String) :
    (∀ cause, env.createOutcome p = some cause →
      writeOutputData env (some p) t =
        (.error (.CreateOutputFile p), env.preFs, "")) ∧
    (env.createOutcome p = none → env.writeOutcome p = none →
      writeOutputData env (some p) t =
        (.ok (), fun q => if q = p then some t else env.preFs q, "")) ∧
    (∀ n cause, env.createOutcome p = none → env.writeOutcome p = some (n, cause) →
      writeOutputData env (some p) t =
        (.error (.WriteOutputFile p),
         fun q => if q = p then some (t.take n) else env.preFs q, "")) ∧
    (∀ fs out, writeOutputData env (some p) t = (.ok (), fs, out) →
      fs p = some t ∧ out = "") ∧
    (∀ e fs out, writeOutputData env (some p) t = (.error e, fs, out) →
      e = .CreateOutputFile p ∨ e = .WriteOutputFile p) := by
  refine ⟨?_, ?_, ?_, ?_, ?_⟩
  · intro cause hc
    simp [writeOutputData, hc]
  · intro hc hw
    simp [writeOutputData, hc, hw]
  · intro n cause hc hw
    simp [writeOutputData, hc, hw]
  · intro fs out h
    unfold writeOutputData at h
    dsimp only at h
    cases hc : env.createOutcome p with
    | some c => rw [hc] at h; simp at h
    | none =>
        rw [hc] at h
        cases hw : env.writeOutcome p with
        | some nc =>
            obtain ⟨n, c⟩ := nc
            rw [hw] at h
            simp at h
        | none =>
            rw [hw] at h
            simp only [Prod.mk.injEq] at h
            obtain ⟨-, hfs, hout⟩ := h
            constructor
            · rw [← hfs]; simp
            · exact hout.symm
  · intro e fs out h
    unfold writeOutputData at h
    dsimp only at h
    cases hc : env.createOutcome p with
    | some c =>
        rw [hc] at h
        simp only [Prod.mk.injEq, Except.error.injEq] at h
        exact Or.inl h.1.symm
    | none =>
        rw [hc] at h
        cases hw : env.writeOutcome p with
        | some nc =>
            obtain ⟨n, c⟩ := nc
            rw [hw] at h
            simp only [Prod.mk.injEq, Except.error.injEq] at h
            exact Or.inr h.1.symm
        | none =>
            rw [hw] at h
            simp at h

/-- C6: the run executes input acquisition, scheme resolution and decode,
then output emission strictly in sequence; the first failure
short-circuits every later stage (an input failure yields the same result
for every codec and every scheme string, and a resolution or decode
failure leaves the file system and stdout untouched), and a failed run
yields exit status 1 with the single descriptive message of its error. -/
theorem stages_in_sequence_short_circuit (env : Env) (codec : Codec) (cli : Cli) :
    (∀ e, readInputData env cli.input = .error e →
      mainRun env codec cli = (.error e, env.preFs, "") ∧
      (∀ codec2, mainRun env codec2 cli = (.error e, env.preFs, "")) ∧
      (∀ s2, mainRun env codec { cli with scheme := s2 } =
        (.error e, env.preFs, ""))) ∧
    (∀ b e, readInputData env cli.input = .ok b →
      humanReadable codec cli.scheme b = .error e →
      mainRun env codec cli = (.error e, env.preFs, "")) ∧
    (∀ e fs out, mainRun env codec cli = (.error e, fs, out) →
      reportExit (mainRun env codec cli).1 = 1 ∧
      errorMessage (mainRun env codec cli).1 = some e.display) := by
  refine ⟨?_, ?_, ?_⟩
  · intro e h
    refine ⟨by simp [mainRun, h], fun codec2 => by simp [mainRun, h],
      fun s2 => by simp [mainRun, h]⟩
  · intro b e hb hfail
    simp [mainRun, hb, hfail]
  · intro e fs out h
    rw [h]
    exact ⟨rfl, rfl⟩

/-- C7: input acquisition with a path yields `OpenInputFile` carrying that
path when opening fails and `ReadInputFile` carrying that path when
reading fails; without a path a stdin failure yields `ReadStdin`; in every
case either the complete byte stream is returned or an error is raised,
never a partial sequence. -/
theorem input_acquisition_contract (env : Env) (path : String) :
    (∀ cause, env.file path = .openFailure cause →
      readInputData env (some path) = .error (.OpenInputFile path)) ∧
    (∀ cause, env.file path = .readFailure cause →
      readInputData env (some path) = .error (.ReadInputFile path)) ∧
    (∀ bytes, env.file path = .contents bytes →
      readInputData env (some path) = .ok bytes) ∧
    (∀ cause, env.stdinData = .error cause →
      readInputData env none = .error .ReadStdin) ∧
    (∀ bytes, env.stdinData = .ok bytes → readInputData env none = .ok bytes) ∧
    (∀ i bytes, readInputData env i = .ok bytes →
      (∀ q, i = some q → env.file q = .contents bytes) ∧
      (i = none → env.stdinData = .ok bytes)) := by
  refine ⟨?_, ?_, ?_, ?_, ?_, ?_⟩
  · intro cause h
    simp [readInputData, h]
  · intro cause h
    simp [readInputData, h]
  · intro bytes h
    simp [readInputData, h]
  · intro cause h
    simp [readInputData, h]
  · intro bytes h
    simp [readInputData, h]
  · intro i bytes h
    cases i with
    | some q =>
        refine ⟨fun r hr => ?_, fun hn => by cases hn⟩
        cases hr
        unfold readInputData at h
        dsimp only at h
        cases hf : env.file q with
        | openFailure c => rw [hf] at h; simp at h
        | readFailure c => rw [hf] at h; simp at h
        | contents b2 =>
            rw [hf] at h
            injection h with h2
            rw [h2]
    | none =>
        refine ⟨fun r hr => ?_, fun _ => ?_⟩
        · cases hr
        · unfold readInputData at h
          dsimp only at h
          cases hs : env.stdinData with
          | error c => rw [hs] at h; simp at h
          | ok b2 =>
              rw [hs] at h
              injection h with h2
              rw [h2]

/-- C8: two scheme strings with the same lowercasing, one of which
resolves successfully, drive the whole pipeline to identical results on
identical input bytes — in particular `DORY`, `Dory` and `dory` behave
identically, and behaviour is invariant under changing the case of any
letter of a successfully resolving scheme name. -/
theorem scheme_case_insensitive (env : Env) (codec : Codec)
    (input output : Option String) (s t : String)
    (hlow : to_lowercase s = to_lowercase t) (hres : resolvesOk s) :
    mainRun env codec ⟨input, output, s⟩ = mainRun env codec ⟨input, output, t⟩ := by
  unfold mainRun
  have hcongr := fun b => humanReadable_congr codec (s := s) (t := t) b hlow hres
  cases readInputData env input with
  | error e => rfl
  | ok b => simp only [hcongr]

/-- C9: on any `OpenInputFile`, `ReadInputFile`, `ReadStdin`,
`UnknownScheme` or `DeserializationError` outcome, the file system is
exactly the pre-existing one and stdout receives nothing, so a
pre-existing file at the output path keeps its previous contents. -/
theorem no_output_effects_before_success (env : Env) (codec : Codec) (cli : Cli)
    (e : CommitUtilityError) (fs : String → Option String) (out : String)
    (h : mainRun env codec cli = (.error e, fs, out))
    (he : e.isPreOutput = true) :
    fs = env.preFs ∧ out = "" ∧
    (∀ q, cli.output = some q → fs q = env.preFs q) := by
  unfold mainRun at h
  cases hr : readInputData env cli.input with
  | error e2 =>
      rw [hr] at h
      simp only [Prod.mk.injEq, Except.error.injEq] at h
      obtain ⟨-, hfs, hout⟩ := h
      exact ⟨hfs.symm, hout.symm, fun q _ => by rw [hfs]⟩
  | ok b =>
      rw [hr] at h
      simp only at h
      cases hh : humanReadable codec cli.scheme b with
      | error e2 =>
          rw [hh] at h
          simp only [Prod.mk.injEq, Except.error.injEq] at h
          obtain ⟨-, hfs, hout⟩ := h
          exact ⟨hfs.symm, hout.symm, fun q _ => by rw [hfs]⟩
      | ok text =>
          rw [hh] at h
          simp only at h
          exfalso
          unfold writeOutputData at h
          cases ho : cli.output with
          | some q =>
              rw [ho] at h
              simp only at h
              cases hc : env.createOutcome q with
              | some c =>
                  rw [hc] at h
                  simp only [Prod.mk.injEq, Except.error.injEq] at h
                  rw [← h.1] at he
                  simp [CommitUtilityError.isPreOutput] at he
              | none =>
                  rw [hc] at h
                  cases hw : env.writeOutcome q with
                  | some nc =>
                      obtain ⟨n, c⟩ := nc
                      rw [hw] at h
                      simp only [Prod.mk.injEq, Except.error.injEq] at h
                      rw [← h.1] at he
                      simp [CommitUtilityError.isPreOutput] at he
                  | none =>
                      rw [hw] at h
                      simp at h
          | none =>
              rw [ho] at h
              simp only at h
              cases hso : env.stdoutOutcome with
              | some nc =>
                  obtain ⟨n, c⟩ := nc
                  rw [hso] at h
                  simp only [Prod.mk.injEq, Except.error.injEq] at h
                  rw [← h.1] at he
                  simp [CommitUtilityError.isPreOutput] at he
              | none =>
                  rw [hso] at h
                  simp at h

/-- C10: every error discards the underlying cause entirely — two runs
whose environments and codecs agree after erasing every opaque
underlying-failure cause produce identical results and identical
displayed messages, determined only by which operation failed and the
operator-supplied path or scheme string. -/
theorem errors_discard_underlying_causes (env1 env2 : Env)
    (codec1 codec2 : Codec) (cli : Cli)
    (henv : Env.mapCauses (fun _ => "") env1 = Env.mapCauses (fun _ => "") env2)
    (hcodec : Codec.mapCauses (fun _ => "") codec1 =
      Codec.mapCauses (fun _ => "") codec2) :
    mainRun env1 codec1 cli = mainRun env2 codec2 cli ∧
    errorMessage (mainRun env1 codec1 cli).1 =
      errorMessage (mainRun env2 codec2 cli).1 := by
  have h1 := mainRun_mapCauses (fun _ => "") env1 codec1 cli
  have h2 := mainRun_mapCauses (fun _ => "") env2 codec2 cli
  have heq : mainRun env1 codec1 cli = mainRun env2 codec2 cli := by
    rw [← h1, ← h2, henv, hcodec]
  exact ⟨heq, by rw [heq]⟩

/-- Witness for C2: with the sample codec and scheme `dory` on the
undecodable byte sequence `[1]`, decoding fails with exactly
`DeserializationError` and a failing run writes nothing. -/
theorem decode_total_or_deserialization_error_witness :
    ((∃ t, humanReadable sampleCodec "dory" [1] = .ok t) ∨
      humanReadable sampleCodec "dory" [1] = .error .DeserializationError) ∧
    ((∃ t, humanReadable sampleCodec "dory" [1] = .ok t) ↔
      decodeSucceeds sampleCodec .Dory [1]) ∧
    (∀ env cli, cli.scheme = "dory" → readInputData env cli.input = .ok [1] →
      humanReadable sampleCodec "dory" [1] = .error .DeserializationError →
      mainRun env sampleCodec cli =
        (.error .DeserializationError, env.preFs, "")) :=
  decode_total_or_deserialization_error sampleCodec "dory" [1] .Dory rfl

/-- Witness for C3: the inputs `DORYX` and `not-a-scheme` yield
`UnknownScheme` carrying exactly the original string; for `DORYX` the
carried string is not the lowercased form. -/
theorem unknown_scheme_carries_original_string_witness :
    humanReadable sampleCodec "DORYX" [0] = .error (.UnknownScheme "DORYX") ∧
    "DORYX" ≠ to_lowercase "DORYX" ∧
    humanReadable sampleCodec "not-a-scheme" [0] =
      .error (.UnknownScheme "not-a-scheme") :=
  ⟨unknown_scheme_carries_original_string sampleCodec "DORYX" [0]
      (by unfold resolvesOk; decide),
   by decide,
   unknown_scheme_carries_original_string sampleCodec "not-a-scheme" [0]
      (by unfold resolvesOk; decide)⟩

/-- Witness for C4: acquiring the same byte `[0]` once from a file and
once from stdin under scheme `dory` renders identically. -/
theorem decode_render_deterministic_witness :
    runRendered sampleEnv sampleCodec ⟨some "a.bin", none, "dory"⟩ =
      runRendered sampleEnv sampleCodec ⟨none, some "out.txt", "dory"⟩ ∧
    runRendered sampleEnv sampleCodec ⟨some "a.bin", none, "dory"⟩ =
      (match humanReadable sampleCodec "dory" [0] with
       | .error _ => none
       | .ok t => some t) :=
  decode_render_deterministic sampleEnv sampleEnv sampleCodec
    ⟨some "a.bin", none, "dory"⟩ ⟨none, some "out.txt", "dory"⟩ [0] rfl rfl rfl

/-- Witness for C5: a successful write leaves exactly the full text; a
failed creation leaves the file system untouched; a write failing after
one character leaves the one-character file on disk. -/
theorem output_emission_contract_witness :
    writeOutputData sampleEnv (some "out.txt") "text" =
      (.ok (), fun q => if q = "out.txt" then some "text" else sampleEnv.preFs q,
       "") ∧
    writeOutputData brokenEnv (some "out.txt") "text" =
      (.error (.CreateOutputFile "out.txt"), brokenEnv.preFs, "") ∧
    writeOutputData writeFailEnv (some "out.txt") "text" =
      (.error (.WriteOutputFile "out.txt"),
       fun q => if q = "out.txt" then some (String.take "text" 1)
         else writeFailEnv.preFs q,
       "") :=
  ⟨(output_emission_contract sampleEnv "out.txt" "text").2.1 rfl rfl,
   (output_emission_contract brokenEnv "out.txt" "text").1
      "read-only file system" rfl,
   (output_emission_contract writeFailEnv "out.txt" "text").2.2.1 1
      "disk full" rfl rfl⟩

/-- Witness for C6: a failed file open aborts the run before any later
stage with exit status 1, and a decode failure aborts before output. -/
theorem stages_in_sequence_short_circuit_witness :
    mainRun brokenEnv sampleCodec ⟨some "in.bin", some "out.txt", "dory"⟩ =
      (.error (.OpenInputFile "in.bin"), brokenEnv.preFs, "") ∧
    mainRun badBytesEnv sampleCodec ⟨some "in.bin", some "out.txt", "dory"⟩ =
      (.error .DeserializationError, badBytesEnv.preFs, "") ∧
    reportExit (mainRun brokenEnv sampleCodec
      ⟨some "in.bin", some "out.txt", "dory"⟩).1 = 1 :=
  ⟨((stages_in_sequence_short_circuit brokenEnv sampleCodec
      ⟨some "in.bin", some "out.txt", "dory"⟩).1 _ rfl).1,
   (stages_in_sequence_short_circuit badBytesEnv sampleCodec
      ⟨some "in.bin", some "out.txt", "dory"⟩).2.1 [1] _ rfl rfl,
   ((stages_in_sequence_short_circuit brokenEnv sampleCodec
      ⟨some "in.bin", some "out.txt", "dory"⟩).2.2 _ _ _
      (((stages_in_sequence_short_circuit brokenEnv sampleCodec
        ⟨some "in.bin", some "out.txt", "dory"⟩).1 _ rfl).1)).1⟩

/-- Witness for C7: each input-acquisition outcome at concrete
environments — open failure, read failure, full file contents, stdin
failure, full stdin contents. -/
theorem input_acquisition_contract_witness :
    readInputData brokenEnv (some "in.bin") = .error (.OpenInputFile "in.bin") ∧
    readInputData readFailEnv (some "in.bin") =
      .error (.ReadInputFile "in.bin") ∧
    readInputData sampleEnv (some "in.bin") = .ok [0] ∧
    readInputData brokenEnv none = .error .ReadStdin ∧
    readInputData sampleEnv none = .ok [0] :=
  ⟨(input_acquisition_contract brokenEnv "in.bin").1 "permission denied" rfl,
   (input_acquisition_contract readFailEnv "in.bin").2.1 "interrupted" rfl,
   (input_acquisition_contract sampleEnv "in.bin").2.2.1 [0] rfl,
   (input_acquisition_contract brokenEnv "in.bin").2.2.2.1 "broken pipe" rfl,
   (input_acquisition_contract sampleEnv "in.bin").2.2.2.2.1 [0] rfl⟩

/-- Witness for C8: `DORY` and `Dory` drive the pipeline exactly as
`dory` does. -/
theorem scheme_case_insensitive_witness :
    mainRun sampleEnv sampleCodec ⟨none, none, "DORY"⟩ =
      mainRun sampleEnv sampleCodec ⟨none, none, "dory"⟩ ∧
    mainRun sampleEnv sampleCodec ⟨none, none, "Dory"⟩ =
      mainRun sampleEnv sampleCodec ⟨none, none, "dory"⟩ :=
  ⟨scheme_case_insensitive sampleEnv sampleCodec none none "DORY" "dory" rfl
      (by unfold resolvesOk; decide),
   scheme_case_insensitive sampleEnv sampleCodec none none "Dory" "dory" rfl
      (by unfold resolvesOk; decide)⟩

/-- Witness for C9: a run failing with `DeserializationError` against an
environment holding a pre-existing `out.txt` leaves the file system
untouched and stdout empty. -/
theorem no_output_effects_before_success_witness :
    preserveEnv.preFs = preserveEnv.preFs ∧ "" = "" ∧
    (∀ q, (Cli.mk (some "in.bin") (some "out.txt") "dory").output = some q →
      preserveEnv.preFs q = preserveEnv.preFs q) :=
  no_output_effects_before_success preserveEnv sampleCodec
    ⟨some "in.bin", some "out.txt", "dory"⟩ .DeserializationError
    preserveEnv.preFs "" rfl rfl

/-- Witness for C10: two environments failing everywhere for different
underlying reasons produce identical results and identical messages. -/
theorem errors_discard_underlying_causes_witness :
    mainRun brokenEnv sampleCodec ⟨some "in.bin", none, "dory"⟩ =
      mainRun brokenEnvAlt sampleCodec ⟨some "in.bin", none, "dory"⟩ ∧
    errorMessage (mainRun brokenEnv sampleCodec
      ⟨some "in.bin", none, "dory"⟩).1 =
      errorMessage (mainRun brokenEnvAlt sampleCodec
        ⟨some "in.bin", none, "dory"⟩).1 :=
  errors_discard_underlying_causes brokenEnv brokenEnvAlt sampleCodec
    sampleCodec ⟨some "in.bin", none, "dory"⟩ rfl rfl
